import Mathlib

/-!
Verification development for the HSV RGB-LED firmware
(sources: src/utils/hsv_rgb_convert.rs, src/utils/color_control.rs,
src/utils/hsv_display.rs, src/main.rs).

Embedding conventions:
* `f32` values are modelled as exact rationals (`ℚ`); the firmware only ever
  compares, clamps, scales by 100 and quantizes to hundredths, so the
  algorithmic content is captured exactly by rational arithmetic.
* `u32` values are modelled as `ℕ`; `as u32` casts of nonnegative floats are
  `Int.toNat ∘ Int.floor` (Rust float-to-int casts truncate toward zero and
  saturate at 0 for negative inputs, which coincides with `toNat ∘ floor`
  on the values that occur here).
* Pin writes and `timer.start` calls are captured as explicit outputs of the
  pure step functions.
-/

/-! ## Definitions (shallow embedding of the source) -/

/-- HSV coordinates (hsv_rgb_convert.rs, struct Hsv). Fields h, s, v. -/
structure Hsv where
  h : ℚ
  s : ℚ
  v : ℚ
deriving DecidableEq, Repr

/-- RGB coordinates (hsv_rgb_convert.rs, struct Rgb). Fields r, g, b. -/
structure Rgb where
  r : ℚ
  g : ℚ
  b : ℚ
deriving DecidableEq, Repr

/-- `let c = self.s * self.v` in Hsv::to_rgb. -/
def Hsv.chroma (hsv : Hsv) : ℚ := hsv.s * hsv.v

/-- `let h6 = self.h * 6.0` in Hsv::to_rgb. -/
def Hsv.h6 (hsv : Hsv) : ℚ := hsv.h * 6

/-- `let sector = h6 as u32` in Hsv::to_rgb (truncating, saturating cast). -/
def Hsv.sector (hsv : Hsv) : ℕ := (⌊hsv.h6⌋).toNat

/-- `let frac = h6 - sector as f32` in Hsv::to_rgb. -/
def Hsv.frac (hsv : Hsv) : ℚ := hsv.h6 - (hsv.sector : ℚ)

/-- `let x = if sector & 1 == 0 { c * frac } else { c * (1.0 - frac) }`. -/
def Hsv.xval (hsv : Hsv) : ℚ :=
  if hsv.sector % 2 = 0 then hsv.chroma * hsv.frac else hsv.chroma * (1 - hsv.frac)

/-- `let m = self.v - c` in Hsv::to_rgb. -/
def Hsv.mval (hsv : Hsv) : ℚ := hsv.v - hsv.chroma

/-- The `match sector` sector lookup `(r1, g1, b1)` in Hsv::to_rgb,
including the catch-all arm `_ => (c, 0.0, x)` for sector >= 6. -/
def Hsv.rgb1 (hsv : Hsv) : ℚ × ℚ × ℚ :=
  match hsv.sector with
  | 0 => (hsv.chroma, hsv.xval, 0)
  | 1 => (hsv.xval, hsv.chroma, 0)
  | 2 => (0, hsv.chroma, hsv.xval)
  | 3 => (0, hsv.xval, hsv.chroma)
  | 4 => (hsv.xval, 0, hsv.chroma)
  | 5 => (hsv.chroma, 0, hsv.xval)
  | _ => (hsv.chroma, 0, hsv.xval)

/-- Hsv::to_rgb (hsv_rgb_convert.rs): returns `Rgb { r: r1 + m, g: g1 + m, b: b1 + m }`. -/
def Hsv.to_rgb (hsv : Hsv) : Rgb :=
  ⟨hsv.rgb1.1 + hsv.mval, hsv.rgb1.2.1 + hsv.mval, hsv.rgb1.2.2 + hsv.mval⟩

/-- The page enum (hsv_display.rs, enum HSVPage). -/
inductive HSVPage where
  | H
  | S
  | V
deriving DecidableEq, Repr

/-- HSVDisplay::left (hsv_display.rs): rotate the displayed HSV page to the left. -/
def HSVDisplay.left : HSVPage → HSVPage
  | .H => .V
  | .S => .H
  | .V => .S

/-- HSVDisplay::right (hsv_display.rs): rotate the displayed HSV page to the right. -/
def HSVDisplay.right : HSVPage → HSVPage
  | .H => .S
  | .S => .V
  | .V => .H

/-- `ColorControler::STEPS_PER_FRAME` (100 steps at 100us = 10ms per frame). -/
def ColorControler.STEPS_PER_FRAME : ℕ := 100

/-- `ColorControler::DURATION_PER_STEP_US` (100 us PWM update rate). -/
def ColorControler.DURATION_PER_STEP_US : ℕ := 100

/-- `ColorControler::TICKS_PER_US = ColorTimer::TICKS_PER_SECOND / 1000 / 1000`;
the nRF timer runs at 1 MHz, so this is 1. -/
def ColorControler.TICKS_PER_US : ℕ := 1000000 / 1000 / 1000

/-- `ColorControler::BRIGHTNESS_STEPS` (limit each RGB value to 100 bins). -/
def ColorControler.BRIGHTNESS_STEPS : ℚ := 100

/-- Rust `f32::clamp(lo, hi)`: if below lo return lo, if above hi return hi,
else the value itself. -/
def f32_clamp (value lo hi : ℚ) : ℚ :=
  if value < lo then lo else if hi < value then hi else value

/-- `ColorControler::_clamp`: thin wrapper around `f32::clamp` onto [0, 1]. -/
def ColorControler._clamp (value : ℚ) : ℚ := f32_clamp value 0 1

/-- `ColorControler::round`: round to the nearest 1/100 (BRIGHTNESS_STEPS bins).
`scaled_number as u32` is the truncating, saturating Rust cast. -/
def ColorControler.round (number : ℚ) : ℚ :=
  let scaled_number := number * ColorControler.BRIGHTNESS_STEPS
  let integer : ℕ := (⌊scaled_number⌋).toNat
  let remainder := scaled_number - (integer : ℚ)
  let integer2 := if 1/2 < remainder then integer + 1 else integer
  (integer2 : ℚ) / ColorControler.BRIGHTNESS_STEPS

/-- `ColorControler::find_min_nonzero`: minimum strictly positive component of
the Rgb value, 0 if all three components are 0 (sentinel 1.1 > any value). -/
def ColorControler.find_min_nonzero (rgb : Rgb) : ℚ :=
  let min0 : ℚ := 11/10
  let min1 := if rgb.r < min0 ∧ 0 < rgb.r then rgb.r else min0
  let min2 := if rgb.g < min1 ∧ 0 < rgb.g then rgb.g else min1
  let min3 := if rgb.b < min2 ∧ 0 < rgb.b then rgb.b else min2
  if 1 < min3 then 0 else min3

/-- `ColorControler::clamp`: clamp all three Hsv components to [0, 1]. -/
def ColorControler.clamp (hsv : Hsv) : Hsv :=
  ⟨ColorControler._clamp hsv.h, ColorControler._clamp hsv.s, ColorControler._clamp hsv.v⟩

/-- `ColorControler::subtract_rgb`: subtract `value` from every component of
`cur_color`, clamping at 0 and re-rounding to the 1/100 bins. -/
def ColorControler.subtract_rgb (cur_color : Rgb) (value : ℚ) : Rgb :=
  ⟨ColorControler.round (ColorControler._clamp (cur_color.r - value)),
   ColorControler.round (ColorControler._clamp (cur_color.g - value)),
   ColorControler.round (ColorControler._clamp (cur_color.b - value))⟩

/-- The mutable fields of `ColorControler` that the algorithms read and write
(the pins and the timer peripheral are pure outputs in this embedding). -/
structure CCState where
  base_color : Hsv
  cur_color : Rgb
  remaining_frames : ℕ
deriving DecidableEq, Repr

/-- `STARTING_HSV` (color_control.rs): magenta, h = 0.9167, s = 0.75, v = 0.8. -/
def STARTING_HSV : Hsv := ⟨9167/10000, 75/100, 8/10⟩

/-- `ColorControler::new`. NOTE (faithful to the source): the constructor runs
`ColorControler::clamp(&mut color.clone())`, i.e. it clamps a temporary clone
of `color` and discards the result; the stored `base_color` is the UNCLAMPED
argument, and `cur_color` is its direct conversion. -/
def ColorControler.new (color : Hsv) : CCState :=
  let _clamped_clone := ColorControler.clamp color
  { base_color := color
    cur_color := color.to_rgb
    remaining_frames := ColorControler.STEPS_PER_FRAME }

/-- `ColorControler::update_hue`: store the clamped hue into base_color. -/
def ColorControler.update_hue (s : CCState) (hue : ℚ) : CCState :=
  { s with base_color := { s.base_color with h := ColorControler._clamp hue } }

/-- `ColorControler::update_sat`: store the clamped saturation into base_color. -/
def ColorControler.update_sat (s : CCState) (sat : ℚ) : CCState :=
  { s with base_color := { s.base_color with s := ColorControler._clamp sat } }

/-- `ColorControler::update_value`: store the clamped value into base_color. -/
def ColorControler.update_value (s : CCState) (value : ℚ) : CCState :=
  { s with base_color := { s.base_color with v := ColorControler._clamp value } }

/-- The frame-boundary block at the top of `ColorControler::render`: when
`remaining_frames == 0`, resynchronize `cur_color` from `base_color` (convert
to RGB and round each channel to the 1/100 bins) and reset the frame counter. -/
def ColorControler.resync (s : CCState) : CCState :=
  if s.remaining_frames = 0 then
    { s with
      cur_color := ⟨ColorControler.round s.base_color.to_rgb.r,
                    ColorControler.round s.base_color.to_rgb.g,
                    ColorControler.round s.base_color.to_rgb.b⟩,
      remaining_frames := ColorControler.STEPS_PER_FRAME }
  else s

/-- The outputs of one `ColorControler::render` call: the three pin writes
(`true` = `set_low` = LED on), the micro-step count of the scheduled interval,
and the argument passed to `timer.start`. -/
structure RenderOut where
  red_on : Bool
  green_on : Bool
  blue_on : Bool
  steps : ℕ
  timer_start : ℕ
deriving DecidableEq, Repr

/-- `ColorControler::render` (color_control.rs lines 169-225) as a pure step:
resynchronize at a frame boundary, set the pins from the current color, compute
the interval from the minimum nonzero channel (falling back to the whole
remaining frame when it truncates to 0), subtract, and arm the timer (with the
just-in-case substitution of 2 when the computed cycle count is 0).
`remaining_frames -= steps` is u32 subtraction; truncated `ℕ` subtraction is
used here, and the invariant theorem shows `steps ≤ remaining_frames` holds so
no wrap-around occurs on reachable states. -/
def ColorControler.render (s0 : CCState) : CCState × RenderOut :=
  let s := ColorControler.resync s0
  let rgb := s.cur_color
  let min_val := ColorControler.find_min_nonzero rgb
  let steps0 : ℕ := (⌊min_val * (ColorControler.STEPS_PER_FRAME : ℚ)⌋).toNat
  let steps := if steps0 = 0 then s.remaining_frames else steps0
  let duration_us := (steps * ColorControler.DURATION_PER_STEP_US) % 2 ^ 32
  let clock_cycles := (ColorControler.TICKS_PER_US * duration_us) % 2 ^ 32
  ({ s with
     remaining_frames := s.remaining_frames - steps,
     cur_color := ColorControler.subtract_rgb rgb min_val },
   { red_on := decide (0 < rgb.r)
     green_on := decide (0 < rgb.g)
     blue_on := decide (0 < rgb.b)
     steps := steps
     timer_start := if clock_cycles = 0 then 2 else clock_cycles })

/-- Proof-side companion of `ColorControler::round`: the chosen brightness bin
as a natural number (so that `ColorControler.round x = roundN x / 100`). -/
def roundN (x : ℚ) : ℕ :=
  let scaled := x * ColorControler.BRIGHTNESS_STEPS
  let integer : ℕ := (⌊scaled⌋).toNat
  if 1/2 < scaled - (integer : ℚ) then integer + 1 else integer

/-- A renderer state whose current color is quantized to hundredths. -/
def quantState (b : Hsv) (kr kg kb rem : ℕ) : CCState :=
  ⟨b, ⟨(kr:ℚ)/100, (kg:ℚ)/100, (kb:ℚ)/100⟩, rem⟩

/-- Iterate `render` (as the TIMER2 interrupt does) until `remaining_frames`
returns to 0, accumulating for each channel the number of micro-steps during
which its pin was driven on (`set_low`); `fuel` bounds the iteration count. -/
def runFrame : ℕ → CCState → ℕ × ℕ × ℕ
  | 0, _ => (0, 0, 0)
  | n + 1, s =>
    let r := ColorControler.render s
    let onr := if r.2.red_on then r.2.steps else 0
    let ong := if r.2.green_on then r.2.steps else 0
    let onb := if r.2.blue_on then r.2.steps else 0
    if r.1.remaining_frames = 0 then (onr, ong, onb)
    else
      let rest := runFrame n r.1
      (onr + rest.1, ong + rest.2.1, onb + rest.2.2)

/-- State invariant of the PWM renderer: the frame counter stays within
[0, STEPS_PER_FRAME], the target color is in range, and away from a frame
boundary every channel of the rendering color is nonnegative and fits in the
remaining micro-step budget. -/
def CCInv (s : CCState) : Prop :=
  s.remaining_frames ≤ ColorControler.STEPS_PER_FRAME ∧
  (0 ≤ s.base_color.h ∧ s.base_color.h ≤ 1 ∧
   0 ≤ s.base_color.s ∧ s.base_color.s ≤ 1 ∧
   0 ≤ s.base_color.v ∧ s.base_color.v ≤ 1) ∧
  (s.remaining_frames = 0 ∨
   (0 ≤ s.cur_color.r ∧ 0 ≤ s.cur_color.g ∧ 0 ≤ s.cur_color.b ∧
    100 * s.cur_color.r ≤ (s.remaining_frames : ℚ) ∧
    100 * s.cur_color.g ≤ (s.remaining_frames : ℚ) ∧
    100 * s.cur_color.b ≤ (s.remaining_frames : ℚ)))

/-- `DEBOUNCE_TIME = 100 * 1_000_000 / 1000` (100 ms at the 1 MHz count rate). -/
def DEBOUNCE_TIME : ℕ := 100 * 1000000 / 1000

/-- `MAX_ADC_VALUE = (1 << 14) - 1` (i16). -/
def MAX_ADC_VALUE : ℤ := 2 ^ 14 - 1

/-- `MAX_ADC_THRESHOLD = MAX_ADC_VALUE as f32 * 0.98`. -/
def MAX_ADC_THRESHOLD : ℚ := (MAX_ADC_VALUE : ℚ) * (98/100)

/-- `MIN_ADC_THRESHOLD = 10f32`. -/
def MIN_ADC_THRESHOLD : ℚ := 10

/-- The state read and written by the GPIOTE interrupt handler: the absolute
tick at which the debounce cooldown elapses (the countdown timer reads
`expiry - now`, zero once the cooldown has passed), the display page, and the
two pending-event flags of the GPIOTE channels (button A and button B). -/
structure GpioteState where
  debounce_expiry : ℕ
  page : HSVPage
  ev0 : Bool
  ev1 : Bool
deriving DecidableEq, Repr

/-- The countdown timer read: ticks remaining until the cooldown elapses. -/
def timer_read (expiry now : ℕ) : ℕ := expiry - now

/-- The GPIOTE interrupt handler (main.rs lines 124-157): first decide
debouncing (and re-arm the cooldown if it has elapsed), then test channel 0
and only otherwise (else-if) channel 1; the handled channel clears its event,
and if debounced the page rotates (left for A, right for B) and the display is
redrawn (the returned Bool). -/
def gpiote_handler (s : GpioteState) (now : ℕ) : GpioteState × Bool :=
  let debounced := timer_read s.debounce_expiry now == 0
  let expiry := if debounced then now + DEBOUNCE_TIME else s.debounce_expiry
  if s.ev0 then
    if debounced then
      ({ debounce_expiry := expiry, page := HSVDisplay.left s.page, ev0 := false, ev1 := s.ev1 },
       true)
    else
      ({ s with ev0 := false, debounce_expiry := expiry }, false)
  else if s.ev1 then
    if debounced then
      ({ debounce_expiry := expiry, page := HSVDisplay.right s.page, ev0 := s.ev0, ev1 := false },
       true)
    else
      ({ s with ev1 := false, debounce_expiry := expiry }, false)
  else
    ({ s with debounce_expiry := expiry }, false)

/-- One button-A edge interrupt arriving at absolute tick `t` while the
debounce expiry is `e` and the page is `p`: runs the GPIOTE handler with the
channel-0 event pending. Returns ((new expiry, new page), accepted?). -/
def edgeA (e : ℕ) (p : HSVPage) (t : ℕ) : (ℕ × HSVPage) × Bool :=
  let r := gpiote_handler ⟨e, p, true, false⟩ t
  ((r.1.debounce_expiry, r.1.page), r.2)

/-- Process a sequence of button-A edges (given by their arrival ticks),
counting how many are accepted (produce a rotation and redraw). -/
def processEdgesA : ℕ → HSVPage → List ℕ → (ℕ × HSVPage) × ℕ
  | e, p, [] => ((e, p), 0)
  | e, p, t :: ts =>
    let r := edgeA e p t
    let rest := processEdgesA r.1.1 r.1.2 ts
    (rest.1, (if r.2 then 1 else 0) + rest.2)

/-- The shared producer/consumer state of the sample accumulator:
ADC_ACCUMULATOR_VALUE, the main loop counter adc_counter, and the
ADC_READY_READ window-close flag. -/
structure AccState where
  accumulator : ℕ
  adc_counter : ℕ
  ready_read : Bool
deriving DecidableEq, Repr

/-- The window-close percentage computation of the main loop (main.rs lines
272-277): average the accumulated sum over the sample count, clamp the mean
into [MIN_ADC_THRESHOLD, MAX_ADC_THRESHOLD], then rescale linearly to [0,1]. -/
def window_percentage (total : ℕ) (count : ℕ) : ℚ :=
  let average := (total : ℚ) / (count : ℚ)
  let clamped := f32_clamp average MIN_ADC_THRESHOLD MAX_ADC_THRESHOLD
  (clamped - MIN_ADC_THRESHOLD) / (MAX_ADC_THRESHOLD - MIN_ADC_THRESHOLD)

/-- Written from the words of the spec for comparison: take the already-formed
arithmetic mean, clamp it into the threshold interval FIRST, and only then
rescale the clamped mean linearly onto [0,1]. -/
def spec_clamp_then_rescale (mean : ℚ) : ℚ :=
  let clamped := f32_clamp mean MIN_ADC_THRESHOLD MAX_ADC_THRESHOLD
  (clamped - MIN_ADC_THRESHOLD) / (MAX_ADC_THRESHOLD - MIN_ADC_THRESHOLD)

/-- The `if ADC_READY_READ ...` consumer block of the main loop (main.rs lines
271-296): when the window-close flag is set, compute the percentage, route it
to the HSV channel selected by the current page, and reset counter, sum and
flag; otherwise leave everything unchanged. -/
def main_window_close (m : AccState) (page : HSVPage) (cc : CCState) :
    AccState × CCState :=
  if m.ready_read then
    let percentage := window_percentage m.accumulator m.adc_counter
    let cc2 := match page with
      | HSVPage.H => ColorControler.update_hue cc percentage
      | HSVPage.S => ColorControler.update_sat cc percentage
      | HSVPage.V => ColorControler.update_value cc percentage
    (⟨0, 0, false⟩, cc2)
  else (m, cc)

/-- A color quantized to hundredths in [0,1] (the form cur_color takes at a
frame boundary after resynchronization). -/
def Quantized (c : Rgb) : Prop :=
  (∃ k : ℕ, k ≤ 100 ∧ c.r = (k:ℚ)/100) ∧
  (∃ k : ℕ, k ≤ 100 ∧ c.g = (k:ℚ)/100) ∧
  (∃ k : ℕ, k ≤ 100 ∧ c.b = (k:ℚ)/100)

/-! ## Theorems -/

/-- C7: the page rotation operations are the fixed cyclic permutations
left: H→V, V→S, S→H and right: H→S, S→V, V→H over {Hue, Saturation, Value},
each is a bijection, and they are mutual inverses: for every page P,
right (left P) = P and left (right P) = P. -/
theorem C7_page_rotations_are_inverse_bijections :
    (∀ p, HSVDisplay.right (HSVDisplay.left p) = p) ∧
    (∀ p, HSVDisplay.left (HSVDisplay.right p) = p) ∧
    Function.Bijective HSVDisplay.left ∧
    Function.Bijective HSVDisplay.right ∧
    HSVDisplay.left .H = .V ∧ HSVDisplay.left .V = .S ∧ HSVDisplay.left .S = .H ∧
    HSVDisplay.right .H = .S ∧ HSVDisplay.right .S = .V ∧ HSVDisplay.right .V = .H := by
  refine ⟨fun p => by cases p <;> rfl, fun p => by cases p <;> rfl, ?_, ?_,
    rfl, rfl, rfl, rfl, rfl, rfl⟩
  · exact Function.bijective_iff_has_inverse.mpr
      ⟨HSVDisplay.right, fun p => by cases p <;> rfl, fun p => by cases p <;> rfl⟩
  · exact Function.bijective_iff_has_inverse.mpr
      ⟨HSVDisplay.left, fun p => by cases p <;> rfl, fun p => by cases p <;> rfl⟩

theorem f32_clamp_mem (x lo hi : ℚ) (h : lo ≤ hi) :
    lo ≤ f32_clamp x lo hi ∧ f32_clamp x lo hi ≤ hi := by
  unfold f32_clamp; split_ifs <;> constructor <;> linarith

theorem f32_clamp_of_mem (x lo hi : ℚ) (h0 : lo ≤ x) (h1 : x ≤ hi) :
    f32_clamp x lo hi = x := by
  unfold f32_clamp; split_ifs <;> linarith

theorem clamp01_mem (x : ℚ) :
    0 ≤ ColorControler._clamp x ∧ ColorControler._clamp x ≤ 1 :=
  f32_clamp_mem x 0 1 (by norm_num)

theorem clamp01_of_mem (x : ℚ) (h0 : 0 ≤ x) (h1 : x ≤ 1) :
    ColorControler._clamp x = x :=
  f32_clamp_of_mem x 0 1 h0 h1

theorem clamp01_of_nonpos (x : ℚ) (h : x ≤ 0) : ColorControler._clamp x = 0 := by
  unfold ColorControler._clamp f32_clamp; split_ifs <;> linarith

/-- For a nonnegative hue the truncating cast in the sector computation is the
integer floor of `6h`. -/
theorem Hsv.sector_cast (hsv : Hsv) (h0 : 0 ≤ hsv.h) :
    (hsv.sector : ℚ) = (⌊hsv.h6⌋ : ℚ) := by
  have hf : (0 : ℤ) ≤ ⌊hsv.h6⌋ := Int.floor_nonneg.mpr (by unfold Hsv.h6; positivity)
  unfold Hsv.sector
  rw [show ((⌊hsv.h6⌋.toNat : ℕ) : ℚ) = ((⌊hsv.h6⌋.toNat : ℤ) : ℚ) by push_cast; ring,
    Int.toNat_of_nonneg hf]

theorem Hsv.frac_mem (hsv : Hsv) (h0 : 0 ≤ hsv.h) :
    0 ≤ hsv.frac ∧ hsv.frac < 1 := by
  unfold Hsv.frac
  rw [Hsv.sector_cast hsv h0]
  constructor
  · linarith [Int.floor_le hsv.h6]
  · linarith [Int.lt_floor_add_one hsv.h6]

theorem Hsv.sector_le_six (hsv : Hsv) (h1 : hsv.h ≤ 1) :
    hsv.sector ≤ 6 := by
  have h6 : hsv.h6 ≤ 6 := by unfold Hsv.h6; linarith
  have : (⌊hsv.h6⌋ : ℤ) ≤ 6 := by
    have := Int.floor_le_floor (α := ℚ) h6
    simpa using this
  unfold Hsv.sector; omega

theorem Hsv.sector_lt_six (hsv : Hsv) (h1 : hsv.h < 1) :
    hsv.sector < 6 := by
  have h6 : hsv.h6 < 6 := by unfold Hsv.h6; linarith
  have : (⌊hsv.h6⌋ : ℤ) < 6 := by
    have := Int.floor_lt.mpr (by exact_mod_cast h6)
    simpa using this
  unfold Hsv.sector; omega

theorem Hsv.sector_eq_six_iff (hsv : Hsv) (h0 : 0 ≤ hsv.h) (h1 : hsv.h ≤ 1) :
    hsv.sector = 6 ↔ hsv.h = 1 := by
  constructor
  · intro hs
    by_contra hne
    have : hsv.h < 1 := lt_of_le_of_ne h1 hne
    have := Hsv.sector_lt_six hsv this
    omega
  · intro hh
    unfold Hsv.sector Hsv.h6
    rw [hh]
    norm_num
    rfl

/-- C1 (code bug witness): `ColorControler::new` runs the clamp on a discarded
clone of its argument, so the stored `base_color` keeps an out-of-range hue:
constructing with h = 2 stores h = 2 even though `_clamp 2 = 1`.  The three
single-channel updates, by contrast, do clamp their argument. -/
theorem C1_new_stores_unclamped_base :
    (ColorControler.new ⟨2, 1/2, 1/2⟩).base_color.h = 2 ∧
    ColorControler._clamp 2 = 1 ∧
    (ColorControler.update_hue (ColorControler.new ⟨2, 1/2, 1/2⟩) 2).base_color.h = 1 ∧
    (ColorControler.update_sat (ColorControler.new ⟨2, 1/2, 1/2⟩) 2).base_color.s = 1 ∧
    (ColorControler.update_value (ColorControler.new ⟨2, 1/2, 1/2⟩) 2).base_color.v = 1 := by
  refine ⟨rfl, ?_, ?_, ?_, ?_⟩ <;>
    · simp only [ColorControler.update_hue, ColorControler.update_sat,
        ColorControler.update_value, ColorControler.new, ColorControler._clamp, f32_clamp]
      norm_num

/-- C2 (counterexample): the entry-point clamp maps into the CLOSED interval
[0,1], so after `update_hue(1.5)` the stored hue is exactly 1; the sector
computation `floor(h*6)` then yields 6 and the catch-all fallback arm of
`Hsv::to_rgb` is the arm that executes (the labelled arms cover 0..=5 only). -/
theorem C2_counterexample_hue_one_reaches_fallback :
    (ColorControler.update_hue (ColorControler.new STARTING_HSV) (3/2)).base_color.h = 1 ∧
    1 ≤ (ColorControler.update_hue (ColorControler.new STARTING_HSV) (3/2)).base_color.h ∧
    (ColorControler.update_hue (ColorControler.new STARTING_HSV) (3/2)).base_color.sector = 6 ∧
    ¬ (ColorControler.update_hue (ColorControler.new STARTING_HSV) (3/2)).base_color.sector < 6 := by
  have hh : (ColorControler.update_hue (ColorControler.new STARTING_HSV) (3/2)).base_color.h = 1 := by
    simp only [ColorControler.update_hue, ColorControler.new, ColorControler._clamp, f32_clamp]
    norm_num
  have hs : (ColorControler.update_hue (ColorControler.new STARTING_HSV) (3/2)).base_color.sector = 6 := by
    unfold Hsv.sector Hsv.h6
    rw [hh]
    norm_num
    rfl
  exact ⟨hh, le_of_eq hh.symm, hs, by omega⟩

/-- C2 (amended): each entry-point write stores a hue in the closed interval
[0,1]; for every hue in [0,1] the sector computation yields at most 6, the
fallback arm (sector ≥ 6) executes exactly in the boundary case h = 1, and for
h < 1 the sector stays below 6 so the fallback never executes. -/
theorem C2_amended_sector_at_most_six (s : CCState) (x : ℚ) (hsv : Hsv)
    (h0 : 0 ≤ hsv.h) (h1 : hsv.h ≤ 1) :
    (ColorControler.update_hue s x).base_color.h ≤ 1 ∧
    0 ≤ (ColorControler.update_hue s x).base_color.h ∧
    hsv.sector ≤ 6 ∧
    (hsv.sector = 6 ↔ hsv.h = 1) ∧
    (hsv.h < 1 → hsv.sector < 6) := by
  refine ⟨(clamp01_mem x).2, (clamp01_mem x).1, Hsv.sector_le_six hsv h1,
    Hsv.sector_eq_six_iff hsv h0 h1, fun hlt => Hsv.sector_lt_six hsv hlt⟩

theorem C2_amended_witness :
    (0 : ℚ) ≤ (1 : ℚ) ∧ (1 : ℚ) ≤ (1 : ℚ) ∧
    ((ColorControler.update_hue (ColorControler.new STARTING_HSV) 2).base_color.h ≤ 1 ∧
     0 ≤ (ColorControler.update_hue (ColorControler.new STARTING_HSV) 2).base_color.h ∧
     (Hsv.mk 1 1 1).sector ≤ 6 ∧
     ((Hsv.mk 1 1 1).sector = 6 ↔ (Hsv.mk 1 1 1).h = 1) ∧
     ((Hsv.mk 1 1 1).h < 1 → (Hsv.mk 1 1 1).sector < 6)) :=
  ⟨by norm_num, by norm_num,
   C2_amended_sector_at_most_six (ColorControler.new STARTING_HSV) 2 (Hsv.mk 1 1 1)
     (by norm_num) (by norm_num)⟩

theorem zero_subst_pos (c : ℕ) : 0 < if c = 0 then 2 else c := by
  split <;> omega

/-- C4: every single call to `render` arms the PWM timer with a strictly
positive tick count: the argument passed to `timer.start` is never 0 (when the
computed cycle count is 0 the code substitutes 2). -/
theorem C4_render_timer_start_positive (s : CCState) :
    0 < (ColorControler.render s).2.timer_start := by
  simp only [ColorControler.render]
  exact zero_subst_pos _

theorem Hsv.chroma_mem (hsv : Hsv) (hs0 : 0 ≤ hsv.s) (hs1 : hsv.s ≤ 1)
    (hv0 : 0 ≤ hsv.v) (hv1 : hsv.v ≤ 1) :
    0 ≤ hsv.chroma ∧ hsv.chroma ≤ hsv.v := by
  unfold Hsv.chroma
  constructor
  · positivity
  · nlinarith

theorem Hsv.xval_mem (hsv : Hsv) (hh0 : 0 ≤ hsv.h) (hc0 : 0 ≤ hsv.chroma) :
    0 ≤ hsv.xval ∧ hsv.xval ≤ hsv.chroma := by
  obtain ⟨hf0, hf1⟩ := Hsv.frac_mem hsv hh0
  unfold Hsv.xval
  split <;> constructor <;> nlinarith

/-- Each component of the pre-offset sector triple lies in [0, chroma]; this
covers all seven match arms of the sector lookup, the catch-all included. -/
theorem Hsv.rgb1_mem (hsv : Hsv) (hh0 : 0 ≤ hsv.h) (hc0 : 0 ≤ hsv.chroma) :
    (0 ≤ hsv.rgb1.1 ∧ hsv.rgb1.1 ≤ hsv.chroma) ∧
    (0 ≤ hsv.rgb1.2.1 ∧ hsv.rgb1.2.1 ≤ hsv.chroma) ∧
    (0 ≤ hsv.rgb1.2.2 ∧ hsv.rgb1.2.2 ≤ hsv.chroma) := by
  obtain ⟨hx0, hx1⟩ := Hsv.xval_mem hsv hh0 hc0
  unfold Hsv.rgb1
  rcases hs : hsv.sector with _ | _ | _ | _ | _ | _ | n <;>
    simp only [hs] <;>
    refine ⟨⟨?_, ?_⟩, ⟨?_, ?_⟩, ⟨?_, ?_⟩⟩ <;> linarith

/-- All three channels returned by `Hsv::to_rgb` lie in [0, 1] whenever
h, s, v all lie in [0, 1] (note the closed upper bound on h: the catch-all
sector-6 arm is included in this analysis). -/
theorem Hsv.to_rgb_mem (hsv : Hsv)
    (hh0 : 0 ≤ hsv.h) (hh1 : hsv.h ≤ 1)
    (hs0 : 0 ≤ hsv.s) (hs1 : hsv.s ≤ 1)
    (hv0 : 0 ≤ hsv.v) (hv1 : hsv.v ≤ 1) :
    (0 ≤ hsv.to_rgb.r ∧ hsv.to_rgb.r ≤ 1) ∧
    (0 ≤ hsv.to_rgb.g ∧ hsv.to_rgb.g ≤ 1) ∧
    (0 ≤ hsv.to_rgb.b ∧ hsv.to_rgb.b ≤ 1) := by
  obtain ⟨hc0, hcv⟩ := Hsv.chroma_mem hsv hs0 hs1 hv0 hv1
  obtain ⟨⟨hr0, hr1⟩, ⟨hg0, hg1⟩, ⟨hb0, hb1⟩⟩ := Hsv.rgb1_mem hsv hh0 hc0
  have hm : hsv.mval = hsv.v - hsv.chroma := rfl
  unfold Hsv.to_rgb
  refine ⟨⟨?_, ?_⟩, ⟨?_, ?_⟩, ⟨?_, ?_⟩⟩ <;> simp only [hm] <;> linarith

/-- C6: for every HSV input with h in [0,1), s in [0,1], v in [0,1],
`Hsv::to_rgb` returns r, g, b each inside [0,1] (no overshoot; the function is
pure and total, so there are no side effects and no error case). -/
theorem C6_to_rgb_in_range (hsv : Hsv)
    (hh0 : 0 ≤ hsv.h) (hh1 : hsv.h < 1)
    (hs0 : 0 ≤ hsv.s) (hs1 : hsv.s ≤ 1)
    (hv0 : 0 ≤ hsv.v) (hv1 : hsv.v ≤ 1) :
    (0 ≤ hsv.to_rgb.r ∧ hsv.to_rgb.r ≤ 1) ∧
    (0 ≤ hsv.to_rgb.g ∧ hsv.to_rgb.g ≤ 1) ∧
    (0 ≤ hsv.to_rgb.b ∧ hsv.to_rgb.b ≤ 1) :=
  Hsv.to_rgb_mem hsv hh0 (le_of_lt hh1) hs0 hs1 hv0 hv1

theorem C6_witness :
    ((0 : ℚ) ≤ 1/2 ∧ (1/2 : ℚ) < 1 ∧ (0 : ℚ) ≤ 3/4 ∧ (3/4 : ℚ) ≤ 1 ∧
     (0 : ℚ) ≤ 4/5 ∧ (4/5 : ℚ) ≤ 1) ∧
    ((0 ≤ (Hsv.mk (1/2) (3/4) (4/5)).to_rgb.r ∧ (Hsv.mk (1/2) (3/4) (4/5)).to_rgb.r ≤ 1) ∧
     (0 ≤ (Hsv.mk (1/2) (3/4) (4/5)).to_rgb.g ∧ (Hsv.mk (1/2) (3/4) (4/5)).to_rgb.g ≤ 1) ∧
     (0 ≤ (Hsv.mk (1/2) (3/4) (4/5)).to_rgb.b ∧ (Hsv.mk (1/2) (3/4) (4/5)).to_rgb.b ≤ 1)) :=
  ⟨⟨by norm_num, by norm_num, by norm_num, by norm_num, by norm_num, by norm_num⟩,
   C6_to_rgb_in_range (Hsv.mk (1/2) (3/4) (4/5))
     (by norm_num) (by norm_num) (by norm_num) (by norm_num) (by norm_num) (by norm_num)⟩

theorem round_eq_roundN (x : ℚ) :
    ColorControler.round x = (roundN x : ℚ) / 100 := rfl

theorem round_nonneg (x : ℚ) : 0 ≤ ColorControler.round x := by
  rw [round_eq_roundN]
  positivity

theorem roundN_quant (k : ℕ) : roundN ((k : ℚ)/100) = k := by
  simp only [roundN, ColorControler.BRIGHTNESS_STEPS]
  rw [show ((k:ℚ)/100) * 100 = (k:ℚ) by field_simp]
  rw [Int.floor_natCast, Int.toNat_natCast]
  norm_num

theorem round_quant (k : ℕ) :
    ColorControler.round ((k : ℚ)/100) = (k : ℚ)/100 := by
  rw [round_eq_roundN, roundN_quant]

theorem ite_le_succ (c : Prop) [Decidable c] (i : ℕ) :
    (if c then i + 1 else i) ≤ i + 1 := by split <;> omega

theorem le_ite_succ (c : Prop) [Decidable c] (i : ℕ) :
    i ≤ (if c then i + 1 else i) := by split <;> omega

theorem roundN_mono (x y : ℚ) (hx : 0 ≤ x) (hxy : x ≤ y) :
    roundN x ≤ roundN y := by
  simp only [roundN, ColorControler.BRIGHTNESS_STEPS]
  have hax : (0:ℤ) ≤ ⌊x * 100⌋ := Int.floor_nonneg.mpr (by positivity)
  have hab : ⌊x * 100⌋ ≤ ⌊y * 100⌋ := Int.floor_le_floor (by linarith)
  rcases eq_or_lt_of_le hab with heq | hlt
  · rw [← heq]
    by_cases hc : 1/2 < x * 100 - ((⌊x * 100⌋.toNat : ℕ) : ℚ)
    · have hcy : 1/2 < y * 100 - ((⌊x * 100⌋.toNat : ℕ) : ℚ) := by linarith
      rw [if_pos hc, if_pos hcy]
    · rw [if_neg hc]
      exact le_ite_succ _ _
  · refine le_trans (ite_le_succ _ _) (le_trans ?_ (le_ite_succ _ _))
    omega

theorem roundN_le_100 (x : ℚ) (h0 : 0 ≤ x) (h1 : x ≤ 1) : roundN x ≤ 100 := by
  simp only [roundN, ColorControler.BRIGHTNESS_STEPS]
  have hax : (0:ℤ) ≤ ⌊x * 100⌋ := Int.floor_nonneg.mpr (by positivity)
  have hf : ⌊x * 100⌋ ≤ 100 := by
    calc ⌊x * 100⌋ ≤ ⌊(100:ℚ)⌋ := Int.floor_le_floor (by linarith)
    _ = 100 := by norm_num
  by_cases hc : 1/2 < x * 100 - ((⌊x * 100⌋.toNat : ℕ) : ℚ)
  · rw [if_pos hc]
    have hlt : ⌊x * 100⌋.toNat < 100 := by
      by_contra hge
      push_neg at hge
      have h100 : (100:ℚ) ≤ ((⌊x * 100⌋.toNat : ℕ) : ℚ) := by exact_mod_cast hge
      linarith
    omega
  · rw [if_neg hc]
    omega

/-- Key inequality for the frame invariant: subtracting `T/100` of brightness
and re-rounding cannot consume fewer micro-steps than `⌊T⌋`: the rounded
remainder plus `⌊T⌋` still fits under the step budget `R`. -/
theorem roundN_sub_add_floor_le (R : ℕ) (T : ℚ) (h0 : 0 ≤ T) (h1 : T ≤ R) :
    roundN (((R:ℚ) - T)/100) + (⌊T⌋).toNat ≤ R := by
  simp only [roundN, ColorControler.BRIGHTNESS_STEPS]
  rw [show (((R:ℚ) - T)/100) * 100 = (R:ℚ) - T by field_simp]
  have ha0 : (0:ℤ) ≤ ⌊T⌋ := Int.floor_nonneg.mpr h0
  have haT : ((⌊T⌋ : ℤ) : ℚ) ≤ T := Int.floor_le T
  have haR : ⌊T⌋ ≤ (R:ℤ) := by
    have : ((⌊T⌋ : ℤ) : ℚ) ≤ (R:ℚ) := le_trans haT h1
    exact_mod_cast this
  rcases eq_or_lt_of_le haT with heqT | hltT
  · -- T is exactly an integer: the remainder is 0 and everything is exact
    have hy : (R:ℚ) - T = (((R:ℤ) - ⌊T⌋ : ℤ) : ℚ) := by push_cast; linarith
    rw [hy, Int.floor_intCast]
    have htn : (((R:ℤ) - ⌊T⌋).toNat : ℚ) = (((R:ℤ) - ⌊T⌋ : ℤ) : ℚ) := by
      have h := Int.toNat_of_nonneg (show (0:ℤ) ≤ (R:ℤ) - ⌊T⌋ by omega)
      exact_mod_cast h
    rw [if_neg (by rw [htn]; norm_num)]
    omega
  · -- T has a strictly positive fractional part
    have haR' : ⌊T⌋ < (R:ℤ) := by
      rcases eq_or_lt_of_le haR with heq | h
      · exfalso
        have : ((⌊T⌋ : ℤ) : ℚ) = (R:ℚ) := by exact_mod_cast heq
        linarith
      · exact h
    have hfloor : ⌊(R:ℚ) - T⌋ = (R:ℤ) - ⌊T⌋ - 1 := by
      apply Int.floor_eq_iff.mpr
      constructor
      · push_cast
        have := Int.lt_floor_add_one T
        push_cast at this
        linarith
      · push_cast
        linarith
    rw [hfloor]
    refine le_trans (Nat.add_le_add_right (ite_le_succ _ _) _) ?_
    omega

theorem guard_ite_le_one (x : ℚ) : (if 1 < x then (0:ℚ) else x) ≤ 1 := by
  split
  · norm_num
  · linarith [le_of_not_lt (by assumption : ¬ 1 < x)]

theorem fmn_le_one (c : Rgb) : ColorControler.find_min_nonzero c ≤ 1 := by
  simp only [ColorControler.find_min_nonzero]
  exact guard_ite_le_one _

/-- On a color whose components all lie in [0,1], `find_min_nonzero` returns 0
exactly when all components are 0, and otherwise one of the strictly positive
components, minimal among them. -/
theorem fmn_spec (c : Rgb) (hr0 : 0 ≤ c.r) (hr1 : c.r ≤ 1) (hg0 : 0 ≤ c.g)
    (hg1 : c.g ≤ 1) (hb0 : 0 ≤ c.b) (hb1 : c.b ≤ 1) :
    (ColorControler.find_min_nonzero c = 0 ∧ c.r = 0 ∧ c.g = 0 ∧ c.b = 0) ∨
    (0 < ColorControler.find_min_nonzero c ∧
     (ColorControler.find_min_nonzero c = c.r ∨ ColorControler.find_min_nonzero c = c.g ∨
      ColorControler.find_min_nonzero c = c.b) ∧
     (0 < c.r → ColorControler.find_min_nonzero c ≤ c.r) ∧
     (0 < c.g → ColorControler.find_min_nonzero c ≤ c.g) ∧
     (0 < c.b → ColorControler.find_min_nonzero c ≤ c.b)) := by
  have hr11 : c.r < 11/10 := by linarith
  have hg11 : c.g < 11/10 := by linarith
  have hb11 : c.b < 11/10 := by linarith
  rcases hr0.lt_or_eq with hr | hr <;> rcases hg0.lt_or_eq with hg | hg <;>
    rcases hb0.lt_or_eq with hb | hb
  · -- r>0, g>0, b>0
    rcases lt_or_le c.g c.r with hgr | hgr
    · rcases lt_or_le c.b c.g with hbg | hbg
      · have hfind : ColorControler.find_min_nonzero c = c.b := by
          simp [ColorControler.find_min_nonzero, hr11, hr, hg, hb, hgr, hbg, not_lt.2 hb1]
        rw [hfind]
        exact Or.inr ⟨hb, Or.inr (Or.inr rfl),
          fun _ => by linarith, fun _ => by linarith, fun _ => le_refl _⟩
      · have hfind : ColorControler.find_min_nonzero c = c.g := by
          simp [ColorControler.find_min_nonzero, hr11, hr, hg, hb, hgr,
            not_lt.2 hbg, not_lt.2 hg1]
        rw [hfind]
        exact Or.inr ⟨hg, Or.inr (Or.inl rfl),
          fun _ => by linarith, fun _ => le_refl _, fun _ => by linarith⟩
    · rcases lt_or_le c.b c.r with hbr | hbr
      · have hfind : ColorControler.find_min_nonzero c = c.b := by
          simp [ColorControler.find_min_nonzero, hr11, hr, hg, hb,
            not_lt.2 hgr, hbr, not_lt.2 hb1]
        rw [hfind]
        exact Or.inr ⟨hb, Or.inr (Or.inr rfl),
          fun _ => by linarith, fun _ => by linarith, fun _ => le_refl _⟩
      · have hfind : ColorControler.find_min_nonzero c = c.r := by
          simp [ColorControler.find_min_nonzero, hr11, hr, hg, hb,
            not_lt.2 hgr, not_lt.2 hbr, not_lt.2 hr1]
        rw [hfind]
        exact Or.inr ⟨hr, Or.inl rfl,
          fun _ => le_refl _, fun _ => by linarith, fun _ => by linarith⟩
  · -- r>0, g>0, b=0
    rcases lt_or_le c.g c.r with hgr | hgr
    · have hfind : ColorControler.find_min_nonzero c = c.g := by
        simp [ColorControler.find_min_nonzero, hr11, hr, hg, ← hb, hgr, not_lt.2 hg1]
      rw [hfind]
      exact Or.inr ⟨hg, Or.inr (Or.inl rfl),
        fun _ => by linarith, fun _ => le_refl _, fun h => by rw [← hb] at h; exact absurd h (lt_irrefl 0)⟩
    · have hfind : ColorControler.find_min_nonzero c = c.r := by
        simp [ColorControler.find_min_nonzero, hr11, hr, hg, ← hb, not_lt.2 hgr, not_lt.2 hr1]
      rw [hfind]
      exact Or.inr ⟨hr, Or.inl rfl,
        fun _ => le_refl _, fun _ => by linarith, fun h => by rw [← hb] at h; exact absurd h (lt_irrefl 0)⟩
  · -- r>0, g=0, b>0
    rcases lt_or_le c.b c.r with hbr | hbr
    · have hfind : ColorControler.find_min_nonzero c = c.b := by
        simp [ColorControler.find_min_nonzero, hr11, hr, ← hg, hb, hbr, not_lt.2 hb1]
      rw [hfind]
      exact Or.inr ⟨hb, Or.inr (Or.inr rfl),
        fun _ => by linarith, fun h => by rw [← hg] at h; exact absurd h (lt_irrefl 0), fun _ => le_refl _⟩
    · have hfind : ColorControler.find_min_nonzero c = c.r := by
        simp [ColorControler.find_min_nonzero, hr11, hr, ← hg, hb, not_lt.2 hbr, not_lt.2 hr1]
      rw [hfind]
      exact Or.inr ⟨hr, Or.inl rfl,
        fun _ => le_refl _, fun h => by rw [← hg] at h; exact absurd h (lt_irrefl 0), fun _ => by linarith⟩
  · -- r>0, g=0, b=0
    have hfind : ColorControler.find_min_nonzero c = c.r := by
      simp [ColorControler.find_min_nonzero, hr11, hr, ← hg, ← hb, not_lt.2 hr1]
    rw [hfind]
    exact Or.inr ⟨hr, Or.inl rfl, fun _ => le_refl _,
      fun h => by rw [← hg] at h; exact absurd h (lt_irrefl 0),
      fun h => by rw [← hb] at h; exact absurd h (lt_irrefl 0)⟩
  · -- r=0, g>0, b>0
    rcases lt_or_le c.b c.g with hbg | hbg
    · have hfind : ColorControler.find_min_nonzero c = c.b := by
        simp [ColorControler.find_min_nonzero, ← hr, hg11, hg, hb, hbg, not_lt.2 hb1]
      rw [hfind]
      exact Or.inr ⟨hb, Or.inr (Or.inr rfl),
        fun h => by rw [← hr] at h; exact absurd h (lt_irrefl 0), fun _ => by linarith, fun _ => le_refl _⟩
    · have hfind : ColorControler.find_min_nonzero c = c.g := by
        simp [ColorControler.find_min_nonzero, ← hr, hg11, hg, hb, not_lt.2 hbg, not_lt.2 hg1]
      rw [hfind]
      exact Or.inr ⟨hg, Or.inr (Or.inl rfl),
        fun h => by rw [← hr] at h; exact absurd h (lt_irrefl 0), fun _ => le_refl _, fun _ => by linarith⟩
  · -- r=0, g>0, b=0
    have hfind : ColorControler.find_min_nonzero c = c.g := by
      simp [ColorControler.find_min_nonzero, ← hr, hg11, hg, ← hb, not_lt.2 hg1]
    rw [hfind]
    exact Or.inr ⟨hg, Or.inr (Or.inl rfl),
      fun h => by rw [← hr] at h; exact absurd h (lt_irrefl 0), fun _ => le_refl _,
      fun h => by rw [← hb] at h; exact absurd h (lt_irrefl 0)⟩
  · -- r=0, g=0, b>0
    have hfind : ColorControler.find_min_nonzero c = c.b := by
      simp [ColorControler.find_min_nonzero, ← hr, ← hg, hb11, hb, not_lt.2 hb1]
    rw [hfind]
    exact Or.inr ⟨hb, Or.inr (Or.inr rfl),
      fun h => by rw [← hr] at h; exact absurd h (lt_irrefl 0),
      fun h => by rw [← hg] at h; exact absurd h (lt_irrefl 0), fun _ => le_refl _⟩
  · -- r=0, g=0, b=0
    have hfind : ColorControler.find_min_nonzero c = 0 := by
      norm_num [ColorControler.find_min_nonzero, ← hr, ← hg, ← hb]
    exact Or.inl ⟨hfind, hr.symm, hg.symm, hb.symm⟩

theorem quant_nonneg (k : ℕ) : (0:ℚ) ≤ (k:ℚ)/100 := by positivity

theorem quant_le_one (k : ℕ) (hk : k ≤ 100) : (k:ℚ)/100 ≤ 1 := by
  rw [div_le_one (by norm_num)]
  exact_mod_cast hk

theorem quant_pos_iff (k : ℕ) : 0 < (k:ℚ)/100 ↔ 0 < k := by
  rw [lt_div_iff (by norm_num)]
  norm_num

theorem quant_le_iff (a b : ℕ) : (a:ℚ)/100 ≤ (b:ℚ)/100 ↔ a ≤ b := by
  rw [div_le_div_iff (by norm_num) (by norm_num)]
  constructor
  · intro h
    exact_mod_cast le_of_mul_le_mul_right h (by norm_num)
  · intro h
    have : (a:ℚ) ≤ (b:ℚ) := by exact_mod_cast h
    nlinarith

theorem quant_eq_zero (k : ℕ) (h : (k:ℚ)/100 = 0) : k = 0 := by
  have : (k:ℚ) = 0 := by
    rcases div_eq_zero_iff.mp h with h1 | h1
    · exact h1
    · norm_num at h1
  exact_mod_cast this

/-- `find_min_nonzero` on a quantized color: the result is a quantized value
`m / 100` where `m` is 0 (iff all channels are 0) or a minimal positive bin. -/
theorem fmn_quant (kr kg kb : ℕ) (hr : kr ≤ 100) (hg : kg ≤ 100) (hb : kb ≤ 100) :
    ∃ m : ℕ,
      ColorControler.find_min_nonzero ⟨(kr:ℚ)/100, (kg:ℚ)/100, (kb:ℚ)/100⟩ = (m:ℚ)/100 ∧
      ((m = 0 ∧ kr = 0 ∧ kg = 0 ∧ kb = 0) ∨
       (0 < m ∧ (m = kr ∨ m = kg ∨ m = kb) ∧
        (0 < kr → m ≤ kr) ∧ (0 < kg → m ≤ kg) ∧ (0 < kb → m ≤ kb))) := by
  have hspec := fmn_spec ⟨(kr:ℚ)/100, (kg:ℚ)/100, (kb:ℚ)/100⟩
    (quant_nonneg kr) (quant_le_one kr hr) (quant_nonneg kg) (quant_le_one kg hg)
    (quant_nonneg kb) (quant_le_one kb hb)
  dsimp only at hspec
  rcases hspec with ⟨h0, hr0, hg0, hb0⟩ | ⟨hpos, heq, hler, hleg, hleb⟩
  · exact ⟨0, by rw [h0]; norm_num,
      Or.inl ⟨rfl, quant_eq_zero kr hr0, quant_eq_zero kg hg0, quant_eq_zero kb hb0⟩⟩
  · rcases heq with hq | hq | hq
    · refine ⟨kr, hq, Or.inr ⟨?_, Or.inl rfl, fun _ => le_refl _, ?_, ?_⟩⟩
      · exact (quant_pos_iff kr).mp (hq ▸ hpos)
      · intro hkg
        exact (quant_le_iff kr kg).mp (hq ▸ hleg ((quant_pos_iff kg).mpr hkg))
      · intro hkb
        exact (quant_le_iff kr kb).mp (hq ▸ hleb ((quant_pos_iff kb).mpr hkb))
    · refine ⟨kg, hq, Or.inr ⟨?_, Or.inr (Or.inl rfl), ?_, fun _ => le_refl _, ?_⟩⟩
      · exact (quant_pos_iff kg).mp (hq ▸ hpos)
      · intro hkr
        exact (quant_le_iff kg kr).mp (hq ▸ hler ((quant_pos_iff kr).mpr hkr))
      · intro hkb
        exact (quant_le_iff kg kb).mp (hq ▸ hleb ((quant_pos_iff kb).mpr hkb))
    · refine ⟨kb, hq, Or.inr ⟨?_, Or.inr (Or.inr rfl), ?_, ?_, fun _ => le_refl _⟩⟩
      · exact (quant_pos_iff kb).mp (hq ▸ hpos)
      · intro hkr
        exact (quant_le_iff kb kr).mp (hq ▸ hler ((quant_pos_iff kr).mpr hkr))
      · intro hkg
        exact (quant_le_iff kb kg).mp (hq ▸ hleg ((quant_pos_iff kg).mpr hkg))

/-- Subtracting a quantized `m/100` from a quantized channel `k/100` under
clamp-and-round lands exactly on the truncated-subtraction bin `(k - m)/100`. -/
theorem round_clamp_sub_quant (k m : ℕ) (hk : k ≤ 100) (hmk : k = 0 ∨ m ≤ k) :
    ColorControler.round (ColorControler._clamp ((k:ℚ)/100 - (m:ℚ)/100)) =
      ((k - m : ℕ) : ℚ)/100 := by
  rcases hmk with hk0 | hmk
  · subst hk0
    have h1 : ((0:ℕ):ℚ)/100 - (m:ℚ)/100 ≤ 0 := by
      simp
      positivity
    rw [clamp01_of_nonpos _ h1]
    rw [show (0:ℚ) = ((0:ℕ):ℚ)/100 by norm_num, round_quant]
    norm_num
  · have hcast : (k:ℚ)/100 - (m:ℚ)/100 = ((k - m : ℕ) : ℚ)/100 := by
      rw [Nat.cast_sub hmk]
      ring
    rw [hcast, clamp01_of_mem _ (quant_nonneg _) (quant_le_one _ (by omega)), round_quant]

theorem resync_of_ne (s : CCState) (h : s.remaining_frames ≠ 0) :
    ColorControler.resync s = s := by
  simp [ColorControler.resync, h]

/-- Away from a frame boundary, a render step on a quantized state: the
minimum nonzero bin `m` determines the interval (`rem` when all channels are
off), each pin is driven on exactly when its bin is positive, every channel
loses `m` bins, and the frame counter decreases by the interval. -/
theorem render_quant (b : Hsv) (kr kg kb rem : ℕ)
    (hrem : 1 ≤ rem) (hr : kr ≤ 100) (hg : kg ≤ 100) (hb : kb ≤ 100) :
    ∃ m : ℕ,
      ((m = 0 ∧ kr = 0 ∧ kg = 0 ∧ kb = 0) ∨
       (0 < m ∧ (m = kr ∨ m = kg ∨ m = kb) ∧
        (0 < kr → m ≤ kr) ∧ (0 < kg → m ≤ kg) ∧ (0 < kb → m ≤ kb))) ∧
      (ColorControler.render (quantState b kr kg kb rem)).2.steps =
        (if m = 0 then rem else m) ∧
      (ColorControler.render (quantState b kr kg kb rem)).2.red_on = decide (0 < kr) ∧
      (ColorControler.render (quantState b kr kg kb rem)).2.green_on = decide (0 < kg) ∧
      (ColorControler.render (quantState b kr kg kb rem)).2.blue_on = decide (0 < kb) ∧
      (ColorControler.render (quantState b kr kg kb rem)).1 =
        quantState b (kr - m) (kg - m) (kb - m) (rem - (if m = 0 then rem else m)) := by
  obtain ⟨m, hmv, hcase⟩ := fmn_quant kr kg kb hr hg hb
  have hne : rem ≠ 0 := by omega
  have hfloor : (⌊(m:ℚ)/100 * (ColorControler.STEPS_PER_FRAME : ℚ)⌋).toNat = m := by
    rw [show ((m:ℚ)/100) * (ColorControler.STEPS_PER_FRAME : ℚ) = (m:ℚ) by
      rw [show (ColorControler.STEPS_PER_FRAME : ℚ) = (100:ℚ) by
        norm_num [ColorControler.STEPS_PER_FRAME]]
      field_simp]
    rw [Int.floor_natCast, Int.toNat_natCast]
  have hmkr : kr = 0 ∨ m ≤ kr := by
    rcases hcase with ⟨hm0, _, _, _⟩ | ⟨_, _, hler, _, _⟩
    · exact Or.inr (by omega)
    · rcases Nat.eq_zero_or_pos kr with h | h
      · exact Or.inl h
      · exact Or.inr (hler h)
  have hmkg : kg = 0 ∨ m ≤ kg := by
    rcases hcase with ⟨hm0, _, _, _⟩ | ⟨_, _, _, hleg, _⟩
    · exact Or.inr (by omega)
    · rcases Nat.eq_zero_or_pos kg with h | h
      · exact Or.inl h
      · exact Or.inr (hleg h)
  have hmkb : kb = 0 ∨ m ≤ kb := by
    rcases hcase with ⟨hm0, _, _, _⟩ | ⟨_, _, _, _, hleb⟩
    · exact Or.inr (by omega)
    · rcases Nat.eq_zero_or_pos kb with h | h
      · exact Or.inl h
      · exact Or.inr (hleb h)
  refine ⟨m, hcase, ?_, ?_, ?_, ?_, ?_⟩
  · simp only [ColorControler.render, ColorControler.resync, quantState, hne, if_false, hmv,
      hfloor]
  · simp only [ColorControler.render, ColorControler.resync, quantState, hne, if_false, hmv,
      hfloor]
    exact decide_eq_decide.mpr (quant_pos_iff kr)
  · simp only [ColorControler.render, ColorControler.resync, quantState, hne, if_false, hmv,
      hfloor]
    exact decide_eq_decide.mpr (quant_pos_iff kg)
  · simp only [ColorControler.render, ColorControler.resync, quantState, hne, if_false, hmv,
      hfloor]
    exact decide_eq_decide.mpr (quant_pos_iff kb)
  · simp only [ColorControler.render, ColorControler.resync, quantState, hne, if_false, hmv,
      hfloor, ColorControler.subtract_rgb, round_clamp_sub_quant kr m hr hmkr,
      round_clamp_sub_quant kg m hg hmkg, round_clamp_sub_quant kb m hb hmkb]

theorem quantState_remaining (b : Hsv) (kr kg kb rem : ℕ) :
    (quantState b kr kg kb rem).remaining_frames = rem := rfl

/-- Running a frame from a quantized in-budget state accumulates, for each
channel, exactly its bin count in on-steps. -/
theorem runFrame_quant : ∀ (fuel : ℕ) (b : Hsv) (kr kg kb rem : ℕ),
    1 ≤ rem → rem ≤ 100 → rem ≤ fuel → kr ≤ rem → kg ≤ rem → kb ≤ rem →
    runFrame fuel (quantState b kr kg kb rem) = (kr, kg, kb) := by
  intro fuel
  induction fuel with
  | zero =>
    intro b kr kg kb rem h1 _ h3 _ _ _
    omega
  | succ n ih =>
    intro b kr kg kb rem h1 h2 h3 hkr hkg hkb
    obtain ⟨m, hcase, hsteps, hred, hgreen, hblue, hstate⟩ :=
      render_quant b kr kg kb rem h1 (by omega) (by omega) (by omega)
    simp only [runFrame, hstate, hsteps, hred, hgreen, hblue, quantState_remaining]
    rcases hcase with ⟨hm0, hr0, hg0, hb0⟩ | ⟨hmpos, _hsel, hler, hleg, hleb⟩
    · subst hm0; subst hr0; subst hg0; subst hb0
      simp
    · have hmne : ¬ (m = 0) := by omega
      simp only [hmne, if_false, decide_eq_true_eq]
      by_cases hrm : rem - m = 0
      · rw [if_pos hrm]
        simp only [Prod.mk.injEq]
        refine ⟨?_, ?_, ?_⟩
        · by_cases hk : 0 < kr
          · rw [if_pos hk]; have := hler hk; omega
          · rw [if_neg hk]; omega
        · by_cases hk : 0 < kg
          · rw [if_pos hk]; have := hleg hk; omega
          · rw [if_neg hk]; omega
        · by_cases hk : 0 < kb
          · rw [if_pos hk]; have := hleb hk; omega
          · rw [if_neg hk]; omega
      · rw [if_neg hrm]
        rw [ih b (kr - m) (kg - m) (kb - m) (rem - m) (by omega) (by omega) (by omega)
          (by omega) (by omega) (by omega)]
        simp only [Prod.mk.injEq]
        refine ⟨?_, ?_, ?_⟩
        · by_cases hk : 0 < kr
          · rw [if_pos hk]; have := hler hk; omega
          · rw [if_neg hk]; omega
        · by_cases hk : 0 < kg
          · rw [if_pos hk]; have := hleg hk; omega
          · rw [if_neg hk]; omega
        · by_cases hk : 0 < kb
          · rw [if_pos hk]; have := hleb hk; omega
          · rw [if_neg hk]; omega

theorem cc_round_zero : ColorControler.round 0 = 0 := by
  rw [show (0:ℚ) = ((0:ℕ):ℚ)/100 by norm_num, round_quant]

theorem steps_cast : (ColorControler.STEPS_PER_FRAME : ℚ) = 100 := by
  norm_num [ColorControler.STEPS_PER_FRAME]

/-- A single render step away from a frame boundary, on any state satisfying
the in-budget bounds: the scheduled interval never exceeds the remaining
micro-steps (so the `remaining_frames -= steps` subtraction cannot wrap), and
the step re-establishes the invariant. -/
theorem render_step_inv (t : CCState)
    (hb : 0 ≤ t.base_color.h ∧ t.base_color.h ≤ 1 ∧ 0 ≤ t.base_color.s ∧
          t.base_color.s ≤ 1 ∧ 0 ≤ t.base_color.v ∧ t.base_color.v ≤ 1)
    (h1 : 1 ≤ t.remaining_frames) (h2 : t.remaining_frames ≤ 100)
    (hcr0 : 0 ≤ t.cur_color.r) (hcg0 : 0 ≤ t.cur_color.g) (hcb0 : 0 ≤ t.cur_color.b)
    (hcr : 100 * t.cur_color.r ≤ (t.remaining_frames : ℚ))
    (hcg : 100 * t.cur_color.g ≤ (t.remaining_frames : ℚ))
    (hcb : 100 * t.cur_color.b ≤ (t.remaining_frames : ℚ)) :
    (ColorControler.render t).2.steps ≤ t.remaining_frames ∧
    CCInv (ColorControler.render t).1 := by
  have hne : t.remaining_frames ≠ 0 := by omega
  have hrem100 : (t.remaining_frames : ℚ) ≤ 100 := by exact_mod_cast h2
  have hrem1 : (1:ℚ) ≤ (t.remaining_frames : ℚ) := by exact_mod_cast h1
  have hr1 : t.cur_color.r ≤ 1 := by linarith
  have hg1 : t.cur_color.g ≤ 1 := by linarith
  have hb1 : t.cur_color.b ≤ 1 := by linarith
  have hspec := fmn_spec t.cur_color hcr0 hr1 hcg0 hg1 hcb0 hb1
  -- bound on the truncated interval
  have hsteps0_le :
      (⌊ColorControler.find_min_nonzero t.cur_color *
        (ColorControler.STEPS_PER_FRAME : ℚ)⌋).toNat ≤ t.remaining_frames := by
    rcases hspec with ⟨hz, _, _, _⟩ | ⟨hpos, hsel, _, _, _⟩
    · rw [hz]
      simp
    · have hle : ColorControler.find_min_nonzero t.cur_color *
          (ColorControler.STEPS_PER_FRAME : ℚ) ≤ (t.remaining_frames : ℚ) := by
        rw [steps_cast]
        rcases hsel with hs | hs | hs <;> rw [hs] <;> linarith
      have hfl : ⌊ColorControler.find_min_nonzero t.cur_color *
          (ColorControler.STEPS_PER_FRAME : ℚ)⌋ ≤ (t.remaining_frames : ℤ) := by
        have := Int.floor_le_floor hle
        rwa [Int.floor_natCast] at this
      omega
  simp only [ColorControler.render, resync_of_ne t hne]
  constructor
  · split <;> omega
  · -- the new state
    by_cases hrm : t.remaining_frames -
        (if (⌊ColorControler.find_min_nonzero t.cur_color *
            (ColorControler.STEPS_PER_FRAME : ℚ)⌋).toNat = 0 then t.remaining_frames
         else (⌊ColorControler.find_min_nonzero t.cur_color *
            (ColorControler.STEPS_PER_FRAME : ℚ)⌋).toNat) = 0
    · exact ⟨by simp only [ColorControler.STEPS_PER_FRAME]; omega, hb, Or.inl hrm⟩
    · -- remaining budget still positive: the interval was the truncated floor
      refine ⟨by simp only [ColorControler.STEPS_PER_FRAME]; omega, hb, Or.inr ?_⟩
      have hs0ne : (⌊ColorControler.find_min_nonzero t.cur_color *
          (ColorControler.STEPS_PER_FRAME : ℚ)⌋).toNat ≠ 0 := by
        intro h
        rw [h] at hrm
        simp at hrm
      rw [if_neg hs0ne] at hrm ⊢
      -- the minimum is one of the strictly positive channels
      rcases hspec with ⟨hz, _, _, _⟩ | ⟨hpos, hsel, hler, hleg, hleb⟩
      · exfalso
        apply hs0ne
        rw [hz]
        simp
      · have hfle : 100 * ColorControler.find_min_nonzero t.cur_color ≤
            (t.remaining_frames : ℚ) := by
          rcases hsel with hs | hs | hs <;> rw [hs] <;> linarith
        have hkey := roundN_sub_add_floor_le t.remaining_frames
          (100 * ColorControler.find_min_nonzero t.cur_color) (by positivity) hfle
        have hfloor_comm : ⌊ColorControler.find_min_nonzero t.cur_color *
            (ColorControler.STEPS_PER_FRAME : ℚ)⌋ =
            ⌊100 * ColorControler.find_min_nonzero t.cur_color⌋ := by
          rw [steps_cast, mul_comm]
        -- per-channel bound
        have hchan : ∀ ch : ℚ, 0 ≤ ch → ch ≤ 1 →
            100 * ch ≤ (t.remaining_frames : ℚ) →
            (0 < ch → ColorControler.find_min_nonzero t.cur_color ≤ ch) →
            0 ≤ ColorControler.round (ColorControler._clamp
                  (ch - ColorControler.find_min_nonzero t.cur_color)) ∧
            100 * ColorControler.round (ColorControler._clamp
                  (ch - ColorControler.find_min_nonzero t.cur_color)) ≤
              ((t.remaining_frames -
                (⌊ColorControler.find_min_nonzero t.cur_color *
                  (ColorControler.STEPS_PER_FRAME : ℚ)⌋).toNat : ℕ) : ℚ) := by
          intro ch hch0 hch1 hchrem hchmin
          refine ⟨round_nonneg _, ?_⟩
          rcases hch0.lt_or_eq with hchpos | hchzero
          · have hminle := hchmin hchpos
            have hsub0 : 0 ≤ ch - ColorControler.find_min_nonzero t.cur_color := by linarith
            have hsub1 : ch - ColorControler.find_min_nonzero t.cur_color ≤ 1 := by linarith
            rw [clamp01_of_mem _ hsub0 hsub1, round_eq_roundN]
            have hmono : roundN (ch - ColorControler.find_min_nonzero t.cur_color) ≤
                roundN (((t.remaining_frames : ℚ) -
                  100 * ColorControler.find_min_nonzero t.cur_color)/100) := by
              apply roundN_mono _ _ hsub0
              have : ch ≤ (t.remaining_frames : ℚ)/100 := by linarith
              rw [show ((t.remaining_frames : ℚ) -
                  100 * ColorControler.find_min_nonzero t.cur_color)/100 =
                  (t.remaining_frames : ℚ)/100 -
                  ColorControler.find_min_nonzero t.cur_color by ring]
              linarith
            have hN : roundN (ch - ColorControler.find_min_nonzero t.cur_color) +
                (⌊ColorControler.find_min_nonzero t.cur_color *
                  (ColorControler.STEPS_PER_FRAME : ℚ)⌋).toNat ≤ t.remaining_frames := by
              rw [hfloor_comm]
              omega
            rw [show (100:ℚ) * ((roundN (ch - ColorControler.find_min_nonzero t.cur_color) : ℚ)/100)
                = (roundN (ch - ColorControler.find_min_nonzero t.cur_color) : ℚ) by ring]
            exact_mod_cast Nat.le_sub_of_add_le hN
          · rw [← hchzero]
            rw [clamp01_of_nonpos _ (by linarith [hpos] : (0:ℚ) -
              ColorControler.find_min_nonzero t.cur_color ≤ 0), cc_round_zero]
            rw [mul_zero]
            positivity
        simp only [ColorControler.subtract_rgb]
        obtain ⟨hA0, hA⟩ := hchan t.cur_color.r hcr0 hr1 hcr
          (fun h => hler h)
        obtain ⟨hB0, hB⟩ := hchan t.cur_color.g hcg0 hg1 hcg
          (fun h => hleg h)
        obtain ⟨hC0, hC⟩ := hchan t.cur_color.b hcb0 hb1 hcb
          (fun h => hleb h)
        exact ⟨hA0, hB0, hC0, hA, hB, hC⟩

theorem resync_idem (s : CCState) :
    ColorControler.resync (ColorControler.resync s) = ColorControler.resync s := by
  by_cases h : s.remaining_frames = 0
  · have h100 : (ColorControler.resync s).remaining_frames = ColorControler.STEPS_PER_FRAME := by
      simp [ColorControler.resync, h]
    exact resync_of_ne _ (by rw [h100]; simp [ColorControler.STEPS_PER_FRAME])
  · rw [resync_of_ne s h, resync_of_ne s h]

theorem render_eq_render_resync (s : CCState) :
    ColorControler.render s = ColorControler.render (ColorControler.resync s) := by
  simp only [ColorControler.render, resync_idem]

theorem runFrame_resync (fuel : ℕ) (s : CCState) :
    runFrame fuel s = runFrame fuel (ColorControler.resync s) := by
  cases fuel with
  | zero => rfl
  | succ n => simp only [runFrame, ← render_eq_render_resync]

theorem resync_apply (s : CCState) (h : s.remaining_frames = 0) :
    ColorControler.resync s =
      ⟨s.base_color,
       ⟨ColorControler.round s.base_color.to_rgb.r,
        ColorControler.round s.base_color.to_rgb.g,
        ColorControler.round s.base_color.to_rgb.b⟩,
       ColorControler.STEPS_PER_FRAME⟩ := by
  simp [ColorControler.resync, h]

theorem resync_eq_quant (s : CCState) (h : s.remaining_frames = 0) :
    ColorControler.resync s =
      quantState s.base_color (roundN s.base_color.to_rgb.r) (roundN s.base_color.to_rgb.g)
        (roundN s.base_color.to_rgb.b) 100 := by
  rw [resync_apply s h]
  simp [quantState, round_eq_roundN, CCState.mk.injEq, Rgb.mk.injEq,
    ColorControler.STEPS_PER_FRAME]

/-- Combined step property used by the invariant claim: under the invariant,
the scheduled interval fits in the (resynchronized) micro-step budget and the
invariant is preserved. -/
theorem render_inv_preserved (s : CCState) (hinv : CCInv s) :
    (ColorControler.render s).2.steps ≤ (ColorControler.resync s).remaining_frames ∧
    CCInv (ColorControler.render s).1 := by
  obtain ⟨hrem100, hbase, hcur⟩ := hinv
  by_cases h0 : s.remaining_frames = 0
  · have hq := resync_eq_quant s h0
    obtain ⟨⟨ha0, ha1⟩, ⟨hb0, hb1⟩, ⟨hc0, hc1⟩⟩ :=
      Hsv.to_rgb_mem s.base_color hbase.1 hbase.2.1 hbase.2.2.1 hbase.2.2.2.1
        hbase.2.2.2.2.1 hbase.2.2.2.2.2
    have hKR := roundN_le_100 _ ha0 ha1
    have hKG := roundN_le_100 _ hb0 hb1
    have hKB := roundN_le_100 _ hc0 hc1
    have hbound : ∀ k : ℕ, k ≤ 100 →
        (100:ℚ) * ((k:ℚ)/100) ≤ (((100:ℕ) : ℕ) : ℚ) := by
      intro k hk
      rw [show (100:ℚ) * ((k:ℚ)/100) = (k:ℚ) by ring]
      exact_mod_cast hk
    have hstep := render_step_inv
      (quantState s.base_color (roundN s.base_color.to_rgb.r) (roundN s.base_color.to_rgb.g)
        (roundN s.base_color.to_rgb.b) 100)
      (by simpa [quantState] using hbase)
      (by simp [quantState]) (by simp [quantState])
      (by simpa [quantState] using quant_nonneg (roundN s.base_color.to_rgb.r))
      (by simpa [quantState] using quant_nonneg (roundN s.base_color.to_rgb.g))
      (by simpa [quantState] using quant_nonneg (roundN s.base_color.to_rgb.b))
      (by simpa [quantState] using hbound _ hKR)
      (by simpa [quantState] using hbound _ hKG)
      (by simpa [quantState] using hbound _ hKB)
    rw [render_eq_render_resync s, hq]
    exact hstep
  · rcases hcur with h | hcurb
    · exact absurd h h0
    rw [render_eq_render_resync s, resync_of_ne s h0]
    exact render_step_inv s hbase (by omega)
      (by simpa [ColorControler.STEPS_PER_FRAME] using hrem100)
      hcurb.1 hcurb.2.1 hcurb.2.2.1 hcurb.2.2.2.1 hcurb.2.2.2.2.1 hcurb.2.2.2.2.2

theorem CCInv_new (color : Hsv)
    (hh0 : 0 ≤ color.h) (hh1 : color.h ≤ 1) (hs0 : 0 ≤ color.s) (hs1 : color.s ≤ 1)
    (hv0 : 0 ≤ color.v) (hv1 : color.v ≤ 1) : CCInv (ColorControler.new color) := by
  obtain ⟨⟨ha0, ha1⟩, ⟨hb0, hb1⟩, ⟨hc0, hc1⟩⟩ :=
    Hsv.to_rgb_mem color hh0 hh1 hs0 hs1 hv0 hv1
  refine ⟨le_refl _, ⟨hh0, hh1, hs0, hs1, hv0, hv1⟩, Or.inr ⟨ha0, hb0, hc0, ?_, ?_, ?_⟩⟩
  · show (100:ℚ) * color.to_rgb.r ≤ ((ColorControler.STEPS_PER_FRAME : ℕ) : ℚ)
    rw [steps_cast]
    linarith
  · show (100:ℚ) * color.to_rgb.g ≤ ((ColorControler.STEPS_PER_FRAME : ℕ) : ℚ)
    rw [steps_cast]
    linarith
  · show (100:ℚ) * color.to_rgb.b ≤ ((ColorControler.STEPS_PER_FRAME : ℕ) : ℚ)
    rw [steps_cast]
    linarith

theorem CCInv_update_hue (s : CCState) (hinv : CCInv s) (x : ℚ) :
    CCInv (ColorControler.update_hue s x) := by
  obtain ⟨h1, hb, h3⟩ := hinv
  exact ⟨h1, ⟨(clamp01_mem x).1, (clamp01_mem x).2, hb.2.2.1, hb.2.2.2.1,
    hb.2.2.2.2.1, hb.2.2.2.2.2⟩, h3⟩

theorem CCInv_update_sat (s : CCState) (hinv : CCInv s) (x : ℚ) :
    CCInv (ColorControler.update_sat s x) := by
  obtain ⟨h1, hb, h3⟩ := hinv
  exact ⟨h1, ⟨hb.1, hb.2.1, (clamp01_mem x).1, (clamp01_mem x).2,
    hb.2.2.2.2.1, hb.2.2.2.2.2⟩, h3⟩

theorem CCInv_update_value (s : CCState) (hinv : CCInv s) (x : ℚ) :
    CCInv (ColorControler.update_value s x) := by
  obtain ⟨h1, hb, h3⟩ := hinv
  exact ⟨h1, ⟨hb.1, hb.2.1, hb.2.2.1, hb.2.2.2.1,
    (clamp01_mem x).1, (clamp01_mem x).2⟩, h3⟩

/-- C5: the remaining_frames counter always stays in [0, STEPS_PER_FRAME]:
the interval scheduled by `render` never exceeds the (resynchronized) frame
counter, so the `remaining_frames -= steps` subtraction cannot underflow; the
post-state satisfies the invariant again (in particular remaining_frames ≤
100); a call entered with remaining_frames = 0 behaves exactly like a call on
the state resynchronized from base_color with the counter reset to 100; and
the invariant holds initially (`new STARTING_HSV`) and is preserved by all
three update operations. -/
theorem C5_remaining_frames_invariant (s : CCState) (hinv : CCInv s) :
    (ColorControler.render s).2.steps ≤ (ColorControler.resync s).remaining_frames ∧
    CCInv (ColorControler.render s).1 ∧
    (ColorControler.render s).1.remaining_frames ≤ ColorControler.STEPS_PER_FRAME ∧
    (s.remaining_frames = 0 →
      ColorControler.render s = ColorControler.render
        ⟨s.base_color,
         ⟨ColorControler.round s.base_color.to_rgb.r,
          ColorControler.round s.base_color.to_rgb.g,
          ColorControler.round s.base_color.to_rgb.b⟩,
         ColorControler.STEPS_PER_FRAME⟩) ∧
    CCInv (ColorControler.new STARTING_HSV) ∧
    (∀ x, CCInv (ColorControler.update_hue s x)) ∧
    (∀ x, CCInv (ColorControler.update_sat s x)) ∧
    (∀ x, CCInv (ColorControler.update_value s x)) := by
  obtain ⟨hsteps, hpres⟩ := render_inv_preserved s hinv
  refine ⟨hsteps, hpres, hpres.1, ?_, ?_,
    fun x => CCInv_update_hue s hinv x, fun x => CCInv_update_sat s hinv x,
    fun x => CCInv_update_value s hinv x⟩
  · intro h0
    rw [render_eq_render_resync s, resync_apply s h0]
  · exact CCInv_new STARTING_HSV (by norm_num [STARTING_HSV]) (by norm_num [STARTING_HSV])
      (by norm_num [STARTING_HSV]) (by norm_num [STARTING_HSV])
      (by norm_num [STARTING_HSV]) (by norm_num [STARTING_HSV])

theorem C5_witness :
    CCInv (CCState.mk (Hsv.mk 0 0 0) (Rgb.mk 0 0 0) 0) ∧
    (ColorControler.render (CCState.mk (Hsv.mk 0 0 0) (Rgb.mk 0 0 0) 0)).2.steps ≤
      (ColorControler.resync (CCState.mk (Hsv.mk 0 0 0) (Rgb.mk 0 0 0) 0)).remaining_frames ∧
    CCInv (ColorControler.render (CCState.mk (Hsv.mk 0 0 0) (Rgb.mk 0 0 0) 0)).1 :=
  ⟨⟨Nat.zero_le _, by norm_num, Or.inl rfl⟩,
   (C5_remaining_frames_invariant _ ⟨Nat.zero_le _, by norm_num, Or.inl rfl⟩).1,
   (C5_remaining_frames_invariant _ ⟨Nat.zero_le _, by norm_num, Or.inl rfl⟩).2.1⟩

/-- C3: starting from a frame boundary (remaining_frames = 0, cur_color
quantized to hundredths) with an in-range target color, iterating `render`
until remaining_frames returns to 0 drives each channel pin on for a number of
micro-steps exactly equal (hence within one micro-step) to 100 times that
channel's resynchronized quantized brightness. -/
theorem C3_frame_duty_cycle (s : CCState)
    (hfb : s.remaining_frames = 0) (hq : Quantized s.cur_color)
    (hh0 : 0 ≤ s.base_color.h) (hh1 : s.base_color.h ≤ 1)
    (hs0 : 0 ≤ s.base_color.s) (hs1 : s.base_color.s ≤ 1)
    (hv0 : 0 ≤ s.base_color.v) (hv1 : s.base_color.v ≤ 1) :
    (((runFrame 101 s).1 : ℚ) = 100 * ColorControler.round s.base_color.to_rgb.r ∧
     ((runFrame 101 s).2.1 : ℚ) = 100 * ColorControler.round s.base_color.to_rgb.g ∧
     ((runFrame 101 s).2.2 : ℚ) = 100 * ColorControler.round s.base_color.to_rgb.b) ∧
    (|((runFrame 101 s).1 : ℚ) - 100 * ColorControler.round s.base_color.to_rgb.r| ≤ 1 ∧
     |((runFrame 101 s).2.1 : ℚ) - 100 * ColorControler.round s.base_color.to_rgb.g| ≤ 1 ∧
     |((runFrame 101 s).2.2 : ℚ) - 100 * ColorControler.round s.base_color.to_rgb.b| ≤ 1) := by
  obtain ⟨⟨ha0, ha1⟩, ⟨hb0, hb1⟩, ⟨hc0, hc1⟩⟩ :=
    Hsv.to_rgb_mem s.base_color hh0 hh1 hs0 hs1 hv0 hv1
  have hrun : runFrame 101 s =
      (roundN s.base_color.to_rgb.r, roundN s.base_color.to_rgb.g,
       roundN s.base_color.to_rgb.b) := by
    rw [runFrame_resync 101 s, resync_eq_quant s hfb]
    exact runFrame_quant 101 s.base_color _ _ _ 100 (by norm_num) (by norm_num) (by norm_num)
      (roundN_le_100 _ ha0 ha1) (roundN_le_100 _ hb0 hb1) (roundN_le_100 _ hc0 hc1)
  have heq : ∀ x : ℚ, (100:ℚ) * ColorControler.round x = (roundN x : ℚ) := by
    intro x
    rw [round_eq_roundN]
    ring
  rw [hrun]
  refine ⟨⟨?_, ?_, ?_⟩, ?_⟩
  · rw [heq]
  · rw [heq]
  · rw [heq]
  · rw [heq, heq, heq]
    norm_num

theorem C3_witness :
    (CCState.mk (Hsv.mk (1/2) 1 1) (Rgb.mk 0 0 0) 0).remaining_frames = 0 ∧
    Quantized (CCState.mk (Hsv.mk (1/2) 1 1) (Rgb.mk 0 0 0) 0).cur_color ∧
    (((runFrame 101 (CCState.mk (Hsv.mk (1/2) 1 1) (Rgb.mk 0 0 0) 0)).1 : ℚ) =
       100 * ColorControler.round
         (CCState.mk (Hsv.mk (1/2) 1 1) (Rgb.mk 0 0 0) 0).base_color.to_rgb.r ∧
     ((runFrame 101 (CCState.mk (Hsv.mk (1/2) 1 1) (Rgb.mk 0 0 0) 0)).2.1 : ℚ) =
       100 * ColorControler.round
         (CCState.mk (Hsv.mk (1/2) 1 1) (Rgb.mk 0 0 0) 0).base_color.to_rgb.g ∧
     ((runFrame 101 (CCState.mk (Hsv.mk (1/2) 1 1) (Rgb.mk 0 0 0) 0)).2.2 : ℚ) =
       100 * ColorControler.round
         (CCState.mk (Hsv.mk (1/2) 1 1) (Rgb.mk 0 0 0) 0).base_color.to_rgb.b) := by
  have hq : Quantized (Rgb.mk 0 0 0) :=
    ⟨⟨0, by norm_num, by norm_num⟩, ⟨0, by norm_num, by norm_num⟩,
     ⟨0, by norm_num, by norm_num⟩⟩
  exact ⟨rfl, hq,
    (C3_frame_duty_cycle _ rfl hq (by norm_num) (by norm_num) (by norm_num)
      (by norm_num) (by norm_num) (by norm_num)).1⟩

theorem edgeA_accept (e : ℕ) (p : HSVPage) (t : ℕ) (h : e ≤ t) :
    edgeA e p t = ((t + DEBOUNCE_TIME, HSVDisplay.left p), true) := by
  have hz : timer_read e t = 0 := by simp [timer_read]; omega
  have hbe : (timer_read e t == 0) = true := beq_iff_eq.mpr hz
  simp [edgeA, gpiote_handler, hbe]

theorem edgeA_reject (e : ℕ) (p : HSVPage) (t : ℕ) (h : t < e) :
    edgeA e p t = ((e, p), false) := by
  have hz : timer_read e t ≠ 0 := by simp [timer_read]; omega
  have hbe : (timer_read e t == 0) = false := by
    simpa using hz
  simp [edgeA, gpiote_handler, hbe]

theorem processEdgesA_rejects (ts : List ℕ) : ∀ (e : ℕ) (p : HSVPage),
    (∀ t ∈ ts, t < e) → processEdgesA e p ts = ((e, p), 0) := by
  induction ts with
  | nil => intro e p _; rfl
  | cons t ts ih =>
    intro e p h
    have hrej := edgeA_reject e p t (h t (List.mem_cons_self t ts))
    simp only [processEdgesA, hrej]
    rw [ih e p (fun u hu => h u (List.mem_cons_of_mem _ hu))]
    simp

/-- C8: an edge arriving while the cooldown reads nonzero is discarded with no
rotation, no redraw and no re-arming; an edge with the timer at zero is always
accepted and arms the 100 ms cooldown; consequently an accepted edge followed
by any number of edges inside its cooldown window yields exactly one accepted
transition (one left rotation), with the state as after the first edge alone. -/
theorem C8_debounce_one_per_window (e t0 : ℕ) (p : HSVPage) (ts : List ℕ)
    (hready : e ≤ t0) (hwin : ∀ t ∈ ts, t < t0 + DEBOUNCE_TIME) :
    edgeA e p t0 = ((t0 + DEBOUNCE_TIME, HSVDisplay.left p), true) ∧
    (∀ (e2 : ℕ) (p2 : HSVPage) (t : ℕ), t < e2 → edgeA e2 p2 t = ((e2, p2), false)) ∧
    (processEdgesA e p (t0 :: ts)).2 = 1 ∧
    (processEdgesA e p (t0 :: ts)).1 = (t0 + DEBOUNCE_TIME, HSVDisplay.left p) := by
  have hacc := edgeA_accept e p t0 hready
  have hrest := processEdgesA_rejects ts (t0 + DEBOUNCE_TIME) (HSVDisplay.left p) hwin
  refine ⟨hacc, fun e2 p2 t ht => edgeA_reject e2 p2 t ht, ?_, ?_⟩ <;>
    simp [processEdgesA, hacc, hrest]

theorem C8_witness :
    (0 ≤ 5) ∧ (∀ t ∈ [6, 7, 100], t < 5 + DEBOUNCE_TIME) ∧
    (edgeA 0 HSVPage.H 5 = ((5 + DEBOUNCE_TIME, HSVDisplay.left HSVPage.H), true) ∧
     (∀ (e2 : ℕ) (p2 : HSVPage) (t : ℕ), t < e2 → edgeA e2 p2 t = ((e2, p2), false)) ∧
     (processEdgesA 0 HSVPage.H (5 :: [6, 7, 100])).2 = 1 ∧
     (processEdgesA 0 HSVPage.H (5 :: [6, 7, 100])).1 =
       (5 + DEBOUNCE_TIME, HSVDisplay.left HSVPage.H)) :=
  ⟨by omega, by decide,
   C8_debounce_one_per_window 0 5 HSVPage.H [6, 7, 100] (by omega) (by decide)⟩

/-- C10: when both channel events are pending in one GPIOTE invocation, only
channel 0 (button A) is examined and cleared; channel 1 keeps its pending
event and causes no rotation: the page either rotates left (if debounced) or
stays, and in particular never rotates right. -/
theorem C10_gpiote_else_if_channel0_only (s : GpioteState) (now : ℕ)
    (h0 : s.ev0 = true) (h1 : s.ev1 = true) :
    (gpiote_handler s now).1.ev0 = false ∧
    (gpiote_handler s now).1.ev1 = true ∧
    (gpiote_handler s now).1.page =
      (if s.debounce_expiry - now = 0 then HSVDisplay.left s.page else s.page) ∧
    (gpiote_handler s now).1.page ≠ HSVDisplay.right s.page := by
  by_cases hd : s.debounce_expiry - now = 0
  · have hbe : (timer_read s.debounce_expiry now == 0) = true :=
      beq_iff_eq.mpr (by simpa [timer_read] using hd)
    refine ⟨?_, ?_, ?_, ?_⟩ <;> simp [gpiote_handler, hbe, h0, h1, hd]
    cases s.page <;> simp [HSVDisplay.left, HSVDisplay.right]
  · have hbe : (timer_read s.debounce_expiry now == 0) = false := by
      simpa [timer_read] using hd
    refine ⟨?_, ?_, ?_, ?_⟩ <;> simp [gpiote_handler, hbe, h0, h1, hd]
    cases s.page <;> simp [HSVDisplay.right]

theorem C10_witness :
    (GpioteState.mk 50 HSVPage.H true true).ev0 = true ∧
    (GpioteState.mk 50 HSVPage.H true true).ev1 = true ∧
    ((gpiote_handler (GpioteState.mk 50 HSVPage.H true true) 7).1.ev0 = false ∧
     (gpiote_handler (GpioteState.mk 50 HSVPage.H true true) 7).1.ev1 = true ∧
     (gpiote_handler (GpioteState.mk 50 HSVPage.H true true) 7).1.page =
       (if (GpioteState.mk 50 HSVPage.H true true).debounce_expiry - 7 = 0 then
          HSVDisplay.left (GpioteState.mk 50 HSVPage.H true true).page
        else (GpioteState.mk 50 HSVPage.H true true).page) ∧
     (gpiote_handler (GpioteState.mk 50 HSVPage.H true true) 7).1.page ≠
       HSVDisplay.right (GpioteState.mk 50 HSVPage.H true true).page) :=
  ⟨rfl, rfl, C10_gpiote_else_if_channel0_only (GpioteState.mk 50 HSVPage.H true true) 7 rfl rfl⟩

/-- C9: at a window close with N ≥ 1 accumulated samples, the consumer
computes the mean S/N, clamps it into [MIN_ADC_THRESHOLD, MAX_ADC_THRESHOLD]
and only then rescales linearly onto [0,1] (the code path equals the
clamp-then-rescale specification applied to the mean); an all-zero window
yields a percentage of exactly 0; and sum, count and the window-close flag are
reset afterwards. -/
theorem C9_window_close_clamp_then_rescale (total count : ℕ) (page : HSVPage)
    (cc : CCState) (hcount : 1 ≤ count) :
    (main_window_close (AccState.mk total count true) page cc).1 = AccState.mk 0 0 false ∧
    window_percentage total count =
      spec_clamp_then_rescale ((total : ℚ) / (count : ℚ)) ∧
    (total = 0 → window_percentage total count = 0) := by
  refine ⟨rfl, rfl, ?_⟩
  intro h0
  subst h0
  norm_num [window_percentage, f32_clamp, MIN_ADC_THRESHOLD, MAX_ADC_THRESHOLD,
    MAX_ADC_VALUE]

theorem C9_witness :
    1 ≤ 1 ∧
    ((main_window_close (AccState.mk 0 1 true) HSVPage.H
        (CCState.mk (Hsv.mk 0 0 0) (Rgb.mk 0 0 0) 0)).1 = AccState.mk 0 0 false ∧
     window_percentage 0 1 = spec_clamp_then_rescale (((0:ℕ) : ℚ) / ((1:ℕ) : ℚ)) ∧
     ((0:ℕ) = 0 → window_percentage 0 1 = 0)) :=
  ⟨le_refl 1,
   C9_window_close_clamp_then_rescale 0 1 HSVPage.H
     (CCState.mk (Hsv.mk 0 0 0) (Rgb.mk 0 0 0) 0) (le_refl 1)⟩
